import Mathlib

/-!
A shallow embedding of `tools/vspec2c.py` (vehicle_signal_specification).

A vspec tree is an ordered mapping from names to nodes; each node is a
dictionary of attributes plus (for branches) a `children` mapping.  We model
the dictionary by a structure of `Option`-valued fields (a `none` field is an
absent key), and the two traversal passes, which in Python mutate the
dictionaries in place, as functions returning the annotated tree.

Python `exit(255)` calls inside `emit_signal` are modelled by `Except`;
an uncaught Python `KeyError` (which aborts the interpreter with exit code 1)
is modelled by a distinct error constructor.
-/

/-- The attribute dictionary of one vspec node.  Each field models one key the
code reads; `none` models the key being absent.  `min`/`max` values are kept in
their printed form, since the code only ever interpolates them into text.
The keys `_index_`, `_parent_index_` and `_signal_path_` are written by the
annotation passes and are absent (`none`) on freshly loaded trees. -/
structure Attrs where
  type : Option String := none
  uuid : Option String := none
  datatype : Option String := none
  unit : Option String := none
  min : Option String := none
  max : Option String := none
  description : Option String := none
  enum : Option (List String) := none
  sensor : Option String := none
  actuator : Option String := none
  idx : Option Nat := none
  parentIdx : Option Int := none
  signalPath : Option String := none
deriving DecidableEq

/-- One vspec node: its attribute dictionary and its `children` mapping
(the empty list models an absent `children` key; the code reads `children`
only for nodes whose `type` is `branch`). -/
inductive VNode : Type where
  | mk (attrs : Attrs) (children : List (String × VNode))

/-- A vspec (sub)tree: an ordered name-to-node mapping. -/
abbrev VTree := List (String × VNode)

def VNode.attrs : VNode → Attrs
  | .mk a _ => a

def VNode.children : VNode → List (String × VNode)
  | .mk _ cs => cs

/-- All nodes of a tree, in pre-order, regardless of kind. -/
def allNodes : VTree → List (String × VNode)
  | [] => []
  | (k, .mk a cs) :: rest => (k, .mk a cs) :: (allNodes cs ++ allNodes rest)

/-- The nodes the code's traversals actually visit, in pre-order: children are
entered only when the parent's `type` is exactly `"branch"`
(vspec2c.py lines 248, 262, 271, 281 all use the same test). -/
def visited : VTree → List (String × VNode)
  | [] => []
  | (k, .mk a cs) :: rest =>
    (k, .mk a cs) ::
      ((if a.type = some "branch" then visited cs else []) ++ visited rest)

/-- `rangeList i n = [i, i+1, ..., i+n-1]`. -/
def rangeList : Nat → Nat → List Nat
  | _, 0 => []
  | i, n + 1 => i :: rangeList (i + 1) n

/-- Python's `str.lower()` as used on kind and value-type names (vspec2c.py
lines 178 and 196).  (Defined over the character list so that it reduces
during evaluation; Lean's own `String.toLower` is defined via a loop the
kernel cannot unfold.) -/
def lower (s : String) : String := ⟨s.data.map Char.toLower⟩

/-- `type_map` of vspec2c.py (lines 146-162): value-type name → output tag. -/
def type_map : String → Option String
  | "int8" => some "VSS_INT8"
  | "uint8" => some "VSS_UINT8"
  | "int16" => some "VSS_INT16"
  | "uint16" => some "VSS_UINT16"
  | "int32" => some "VSS_INT32"
  | "uint32" => some "VSS_UINT32"
  | "int64" => some "VSS_INT64"
  | "uint64" => some "VSS_UINT64"
  | "float" => some "VSS_FLOAT"
  | "double" => some "VSS_DOUBLE"
  | "bool" => some "VSS_BOOLEAN"
  | "boolean" => some "VSS_BOOLEAN"
  | "string" => some "VSS_STRING"
  | "stream" => some "VSS_STREAM"
  | "na" => some "VSS_NA"
  | _ => none

/-- `element_map` of vspec2c.py (lines 164-171): element kind → output tag. -/
def element_map : String → Option String
  | "attribute" => some "VSS_ATTRIBUTE"
  | "branch" => some "VSS_BRANCH"
  | "sensor" => some "VSS_SENSOR"
  | "actuator" => some "VSS_ACTUATOR"
  | "rbranch" => some "VSS_RBRANCH"
  | "element" => some "VSS_ELEMENT"
  | _ => none

/-- Fatal outcomes of the generator.
`keyMissing e path` models the `except KeyError` branch of `emit_signal`
(lines 179-182: print the missing key `e` and the node's `_signal_path_`,
then `exit(255)`); `e` is the missing dictionary key, or the lower-cased kind
string when the `element_map` lookup raised.
`illegalDataType e path` models lines 197-202 (`exit(255)`).
`uncaughtKeyError k` models a `KeyError` no handler catches, which kills the
Python interpreter with exit code 1. -/
inductive VErr : Type where
  | keyMissing (key : String) (path : String)
  | illegalDataType (key : String) (path : String)
  | uncaughtKeyError (key : String)
deriving DecidableEq

/-- The process exit code each fatal outcome produces: `exit(255)` for the
handled errors, the interpreter's exit code 1 for an uncaught `KeyError`. -/
def exit_code : VErr → Nat
  | .keyMissing _ _ => 255
  | .illegalDataType _ _ => 255
  | .uncaughtKeyError _ => 1

/-- The except-handler of `emit_signal` (lines 179-182): report the missing
key together with the node's `_signal_path_` and `exit(255)`.  The handler
itself reads `_signal_path_`, so if that key is also absent the handler
raises an uncaught `KeyError`. -/
def fail_key (key : String) (a : Attrs) : VErr :=
  match a.signalPath with
  | some p => .keyMissing key p
  | none => .uncaughtKeyError "_signal_path_"

/-- The illegal-datatype handler of `emit_signal` (lines 197-202), which also
reads `_signal_path_` before `exit(255)`. -/
def fail_datatype (key : String) (a : Attrs) : VErr :=
  match a.signalPath with
  | some p => .illegalDataType key p
  | none => .uncaughtKeyError "_signal_path_"

/-- The thirteen interpolated values of the record f-string
(vspec2c.py line 237), in order. -/
structure SigRecord where
  index : Nat
  parent_index : Int
  name : String
  uuid : String
  elem_type : String
  data_type : String
  unit : String
  minv : String
  maxv : String
  desc : String
  enumv : String
  sensor : String
  actuator : String
deriving DecidableEq

/-- The f-string of vspec2c.py line 237, rendering one array-initializer
line from the thirteen computed values. -/
def format_signal (r : SigRecord) : String :=
  "    \x7b " ++ toString r.index ++ ", " ++ toString r.parent_index ++ ", \""
    ++ r.name ++ "\", \"" ++ r.uuid ++ "\", " ++ r.elem_type ++ ", "
    ++ r.data_type ++ ", \"" ++ r.unit ++ "\", " ++ r.minv ++ ", " ++ r.maxv
    ++ ", \"" ++ r.desc ++ "\", (const char*[]) " ++ r.enumv ++ ", \""
    ++ r.sensor ++ "\", \"" ++ r.actuator ++ "\" \x7d,\n"

/-- The bound-eligibility list of vspec2c.py lines 208 and 215 (tested, as in
the code, against the mapped element tag `elem_type`, not against the node's
value-type; see `emit_signal_diags_nil`). -/
def ignore_bounds_list : List String :=
  ["int8", "uint8", "int16", "uint16", "int32", "uint32", "double", "float"]

/-- The body of `emit_signal` (vspec2c.py lines 173-237) up to formatting:
computes the thirteen record values plus the list of diagnostics printed on
the way (the `Ignoring specified min/max value` notices of lines 211 and 218).
In the diagnostics the `_signal_path_` lookup is modelled by `getD ""`; the
code's lookup would raise if the key were absent, but `emit_signal_diags_nil`
proves these branches are never taken at all. -/
def signal_fields (signal_name : String) (a : Attrs) :
    Except VErr (SigRecord × List String) :=
  match a.idx with
  | none => .error (fail_key "_index_" a)
  | some index =>
  match a.parentIdx with
  | none => .error (fail_key "_parent_index_" a)
  | some parent_index =>
  match a.uuid with
  | none => .error (fail_key "uuid" a)
  | some uuid =>
  match a.type with
  | none => .error (fail_key "type" a)
  | some ty =>
  match element_map (lower ty) with
  | none => .error (fail_key (lower ty) a)
  | some elem_type =>
  match
    (match a.datatype with
     | none => Except.ok "VSS_NA"
     | some dt =>
       match type_map (lower dt) with
       | none => Except.error (fail_datatype (lower dt) a)
       | some d => Except.ok d) with
  | .error e => .error e
  | .ok data_type =>
    let unit := a.unit.getD ""
    let path_str := a.signalPath.getD ""
    let min_pair :=
      match a.min with
      | none => ("INT64_MIN", ([] : List String))
      | some m =>
        if ignore_bounds_list.contains elem_type then
          ("INT64_MIN",
           ["Signal " ++ path_str ++ ": Ignoring specified min value for type "
              ++ data_type])
        else (m, [])
    let max_pair :=
      match a.max with
      | none => ("INT64_MIN", ([] : List String))
      | some m =>
        if ignore_bounds_list.contains elem_type then
          ("INT64_MIN",
           ["Signal " ++ path_str ++ ": Ignoring specified max value for type "
              ++ data_type])
        else (m, [])
    let desc := a.description.getD ""
    let enumv :=
      match a.enum with
      | none => "\x7b 0 \x7d"
      | some es =>
        (es.foldl (fun acc e => acc ++ "\"" ++ e ++ "\", ") "\x7b") ++ "\x7d"
    let sensor := a.sensor.getD ""
    let actuator := a.actuator.getD ""
    .ok ({ index := index, parent_index := parent_index, name := signal_name,
           uuid := uuid, elem_type := elem_type, data_type := data_type,
           unit := unit, minv := min_pair.1, maxv := max_pair.1, desc := desc,
           enumv := enumv, sensor := sensor, actuator := actuator },
         min_pair.2 ++ max_pair.2)

/-- `emit_signal` (vspec2c.py lines 173-237): the rendered record line plus the
diagnostics printed while computing it. -/
def emit_signal (signal_name : String) (a : Attrs) :
    Except VErr (String × List String) :=
  match signal_fields signal_name a with
  | .error e => .error e
  | .ok (r, d) => .ok (format_signal r, d)

/-- `add_signal_index` (vspec2c.py lines 242-251).  Assigns `_index_` and
`_parent_index_` to each entry in declaration order, recursing into `children`
exactly when `type == 'branch'`, threading the counter through the recursion
and rebinding it before the next sibling.  Returns the annotated tree and the
next counter value. -/
def add_signal_index : VTree → Nat → Int → VTree × Nat
  | [], index, _ => ([], index)
  | (k, .mk a cs) :: rest, index, parent_index =>
    let a' := { a with idx := some index, parentIdx := some parent_index }
    let child_res :=
      if a.type = some "branch" then
        add_signal_index cs (index + 1) (index : Int)
      else (cs, index + 1)
    let rest_res := add_signal_index rest child_res.2 parent_index
    ((k, .mk a' child_res.1) :: rest_res.1, rest_res.2)

/-- `add_signal_path` (vspec2c.py lines 253-263).  Assigns `_signal_path_`
to each entry (`parent + "_" + name` when the parent path is non-empty, else
the bare name), recursing into `children` exactly when `type == 'branch'`. -/
def add_signal_path : VTree → String → VTree
  | [], _ => []
  | (k, .mk a cs) :: rest, parent_signal =>
    let signal_path :=
      if parent_signal.length > 0 then parent_signal ++ "_" ++ k else k
    let a' := { a with signalPath := some signal_path }
    let cs' := if a.type = some "branch" then add_signal_path cs signal_path
               else cs
    (k, .mk a' cs') :: add_signal_path rest parent_signal

/-- `generate_source` (vspec2c.py lines 265-274): concatenation of the emitted
record lines in pre-order (recursing exactly on `type == 'branch'`), together
with the collected diagnostics; the first fatal `emit_signal` error aborts. -/
def generate_source : VTree → Except VErr (String × List String)
  | [] => .ok ("", [])
  | (k, .mk a cs) :: rest =>
    match emit_signal k a with
    | .error e => .error e
    | .ok (s, d) =>
      match (if a.type = some "branch" then generate_source cs
             else .ok ("", [])) with
      | .error e => .error e
      | .ok sd1 =>
        match generate_source rest with
        | .error e => .error e
        | .ok sd2 => .ok (s ++ sd1.1 ++ sd2.1, d ++ sd1.2 ++ sd2.2)

/-- `generate_header` (vspec2c.py lines 277-284): one `#define` macro line per
visited node, built from `_signal_path_` and `_index_` (both read directly, so
a missing key is an uncaught `KeyError`), recursing exactly on
`type == 'branch'`. -/
def generate_header : VTree → Except VErr String
  | [] => .ok ""
  | (_, .mk a cs) :: rest =>
    match a.signalPath with
    | none => .error (.uncaughtKeyError "_signal_path_")
    | some p =>
    match a.idx with
    | none => .error (.uncaughtKeyError "_index_")
    | some i =>
      let m := "#define VSS_" ++ p ++ "() vss_get_signal_by_index("
                 ++ toString i ++ ")\n"
      match (if a.type = some "branch" then generate_header cs
             else .ok "") with
      | .error e => .error e
      | .ok s1 =>
        match generate_header rest with
        | .error e => .error e
        | .ok s2 => .ok (m ++ s1 ++ s2)

/-- The C header template `vss_hdr_template` (vspec2c.py lines 22-101),
verbatim (braces and apostrophes written as hex escapes). -/
def vss_hdr_template : String :=
  "\n//\n// Auto generated code by vspec2c.py\n// See github.com/GENIVI/vehicle_signal_specification for details/\n//\n\n"
  ++ "#include <stdint.h>\n#include <float.h>\n\n"
  ++ "typedef enum _vss_signal_type_e \x7b\n    VSS_INT8 = 0,\n    VSS_UINT8 = 1,\n    VSS_INT16 = 2,\n    VSS_UINT16 = 3,\n    VSS_INT32 = 4,\n    VSS_UINT32 = 5,\n    VSS_DOUBLE = 6,\n    VSS_FLOAT = 7,\n    VSS_BOOLEAN = 8,\n    VSS_STRING = 9,\n    VSS_STREAM = 10,\n    VSS_NA = 11,\n\x7d vss_signal_type_e;\n\n"
  ++ "typedef enum _vss_element_type_e \x7b\n    VSS_ATTRIBUTE = 0,\n    VSS_BRANCH = 1,\n    VSS_SENSOR = 2,\n    VSS_ACTUATOR = 3,\n    VSS_RBRANCH = 4,\n    VSS_ELEMENT = 5,\n\x7d vss_element_type_e;\n\n"
  ++ "typedef struct _vss_signal_t \x7b\n    int index;\n    int parent_index;\n    const char *name;\n    const char *uuid;\n    vss_element_type_e element_type;\n    vss_signal_type_e data_type;\n    const char *unit_type;\n\n    union  \x7b\n        int64_t i;\n        double d;\n    \x7d min_val;\n\n    union \x7b\n        int64_t i;\n        double d;\n    \x7d max_val;\n\n    const char *description;\n    const char **enum_values;\n    const char *sensor;\n    const char *actuator;\n\x7d vss_signal_t;\n\n\n"
  ++ "// Return a signal struct pointer based on signal index.\nextern vss_signal_t* vss_signal_by_index(int index);\n\n"
  ++ "// Return a signal struct pointer based on full signal path\nextern vss_signal_t* vss_signal_by_name(char* path);\n\n"
  ++ "// Return the parent of a signal. Return 0 if signal is root.\nextern vss_signal_t* vss_get_parent(vss_signal_t* signal);\n\n"
  ++ "// Populate the full path name to the given signal.\n// The name will be stored in \x27result\x27.\n// No more than \x27result_max_len\x27 bytes will be copied.\n// The copied name will always be null terminated.\n// \x27result\x27 is returned.\n// In case of error, an empty string is copiec into result.\nchar* vss_get_signal_path(vss_signal_t* sig, char* result, int result_max_len);\n\n"
  ++ "extern vss_signal_t vss_signal[];\n\n:MACRO_DEFINITION_BLOCK:\n"

/-- The C source template `vss_src_template` (vspec2c.py lines 106-129),
verbatim (braces written as hex escapes). -/
def vss_src_template : String :=
  "\n//\n// Auto generated code by vspec2c.py\n// See github.com/GENIVI/vehicle_signal_specification for details/\n//\n\n"
  ++ "#include \":HEADER_FILE_NAME:\"\n\n"
  ++ "vss_signal_t* vss_signal_by_index(int index)\n\x7b\n\x7d\n\n"
  ++ "vss_signal_t* vss_signal_by_name(char* path)\n\x7b\n\x7d\n\n"
  ++ "vss_signal_t* vss_get_parent(vss_signal_t* signal)\n\x7b\n\x7d\n\n"
  ++ "vss_signal_t vss_signal[] = \x7b\n:VSS_SIGNAL_ARRAY:\n\x7d;\n"

/-- The compile pipeline of `__main__` (vspec2c.py lines 320-333), on an
already-loaded tree: run the two annotation passes, compute the macro block
and write the header file, then compute the record block and write the source
file.  `hdr_name` is the header file's basename (threaded into the source
template).  Returns the list of files written, in write order, tagged
`"header"` / `"source"`, and the fatal error if one occurred.  A file's
content is fully assembled before it is written, so a fatal error while
computing the record block (`generate_source`, line 329) leaves exactly the
header file on disk. -/
def run_vspec2c (tree : VTree) (hdr_name : String) :
    List (String × String) × Option VErr :=
  let t1 := (add_signal_index tree 0 (-1)).1
  let t2 := add_signal_path t1 ""
  match generate_header t2 with
  | .error e => ([], some e)
  | .ok macro_block =>
    let hdr := vss_hdr_template.replace ":MACRO_DEFINITION_BLOCK:" macro_block
    match generate_source t2 with
    | .error e => ([("header", hdr)], some e)
    | .ok sd =>
      let src := (vss_src_template.replace ":VSS_SIGNAL_ARRAY:" sd.1).replace
                   ":HEADER_FILE_NAME:" hdr_name
      ([("header", hdr), ("source", src)], none)

/-- The record lines `generate_source` concatenates, as a list: one
`emit_signal` result per visited node, in the same pre-order, aborting on the
first error.  `generate_source_eq_records` ties this to `generate_source`. -/
def records : VTree → Except VErr (List String)
  | [] => .ok []
  | (k, .mk a cs) :: rest =>
    match emit_signal k a with
    | .error e => .error e
    | .ok sd =>
      match (if a.type = some "branch" then records cs else .ok []) with
      | .error e => .error e
      | .ok l1 =>
        match records rest with
        | .error e => .error e
        | .ok l2 => .ok (sd.1 :: (l1 ++ l2))

/-- The macro lines `generate_header` concatenates, as a list: one line per
visited node, in the same pre-order.  `generate_header_eq_macros` ties this
to `generate_header`. -/
def macros : VTree → Except VErr (List String)
  | [] => .ok []
  | (_, .mk a cs) :: rest =>
    match a.signalPath with
    | none => .error (.uncaughtKeyError "_signal_path_")
    | some p =>
    match a.idx with
    | none => .error (.uncaughtKeyError "_index_")
    | some i =>
      let m := "#define VSS_" ++ p ++ "() vss_get_signal_by_index("
                 ++ toString i ++ ")\n"
      match (if a.type = some "branch" then macros cs else .ok []) with
      | .error e => .error e
      | .ok l1 =>
        match macros rest with
        | .error e => .error e
        | .ok l2 => .ok (m :: (l1 ++ l2))

/-- Every node of the tree carries a `type` key.  (On a node without one the
Python traversals would die on an uncaught `KeyError`; the theorems about the
traversal passes therefore assume this.) -/
def allTyped (t : VTree) : Bool :=
  (allNodes t).all fun p => (VNode.attrs p.2).type.isSome

/-- Children occur only under nodes whose kind is exactly `"branch"` — the
only kind the code's traversals recurse on. -/
def branchChildrenOnly (t : VTree) : Bool :=
  (allNodes t).all fun p =>
    (VNode.children p.2).isEmpty || (VNode.attrs p.2).type = some "branch"

/-- Well-formedness in the sense of the specification document: every node
carries a kind, and children occur only under branch-like kinds, where
branch-like is `branch` or `rbranch` (restricted branch). -/
def wellFormedSpec (t : VTree) : Bool :=
  (allNodes t).all fun p =>
    (VNode.attrs p.2).type.isSome &&
    ((VNode.children p.2).isEmpty ||
      ((VNode.attrs p.2).type = some "branch" ||
        (VNode.attrs p.2).type = some "rbranch"))

/-- Drop the children of every node whose kind is not exactly `"branch"`. -/
def pruneNonBranch : VTree → VTree
  | [] => []
  | (k, .mk a cs) :: rest =>
    (k, .mk a (if a.type = some "branch" then pruneNonBranch cs else [])) ::
      pruneNonBranch rest

/-- The path-assignment contract, relative to a parent prefix `s`: each entry
gets `s + "_" + name` (or the bare name when `s` is empty) as its
`_signal_path_`, and the children of each `branch` entry satisfy the same
contract with the entry's own path as prefix. -/
def pathsOK (s : String) : VTree → Prop
  | [] => True
  | (k, .mk a cs) :: rest =>
    (a.signalPath = some (if s.length > 0 then s ++ "_" ++ k else k)) ∧
    (a.type = some "branch" →
      pathsOK (if s.length > 0 then s ++ "_" ++ k else k) cs) ∧
    pathsOK s rest


theorem rangeList_zero (i : Nat) : rangeList i 0 = [] := rfl

theorem rangeList_succ (i n : Nat) : rangeList i (n + 1) = i :: rangeList (i + 1) n := rfl

theorem rangeList_length : ∀ (i n : Nat), (rangeList i n).length = n
  | _, 0 => rfl
  | i, n + 1 => by simp [rangeList, rangeList_length (i + 1) n]

theorem rangeList_append : ∀ (i m n : Nat),
    rangeList i (m + n) = rangeList i m ++ rangeList (i + m) n
  | i, 0, n => by simp [rangeList_zero]
  | i, m + 1, n => by
    have ih := rangeList_append (i + 1) m n
    have h1 : m + 1 + n = (m + n) + 1 := by omega
    have h2 : i + (m + 1) = (i + 1) + m := by omega
    rw [h1, h2, rangeList_succ, rangeList_succ, ih, List.cons_append]

/-- The counter returned by `add_signal_index` advances by exactly the number
of visited nodes. -/
theorem add_signal_index_counter : ∀ (t : VTree) (i : Nat) (p : Int),
    (add_signal_index t i p).2 = i + (visited t).length
  | [], i, p => by simp [add_signal_index, visited]
  | (k, .mk a cs) :: rest, i, p => by
    have ihc := add_signal_index_counter cs (i + 1) (i : Int)
    have ihr1 := add_signal_index_counter rest
      ((add_signal_index cs (i + 1) (i : Int)).2) p
    have ihr2 := add_signal_index_counter rest (i + 1) p
    by_cases hb : a.type = some "branch"
    · simp only [add_signal_index, visited, hb, if_true, List.length_cons,
        List.length_append]
      rw [ihr1, ihc]
      omega
    · simp only [add_signal_index, visited, hb, if_false, List.length_cons,
        List.length_append, List.length_nil]
      rw [ihr2]
      omega

/-- The visited nodes of the annotated tree carry, in pre-order, exactly the
consecutive indices `i, i+1, ...` — contiguity of index assignment, including
the continuation of sibling numbering after an entire subtree. -/
theorem add_signal_index_idx : ∀ (t : VTree) (i : Nat) (p : Int),
    (visited (add_signal_index t i p).1).map (fun q => (VNode.attrs q.2).idx)
      = (rangeList i (visited t).length).map some
  | [], i, p => by simp [add_signal_index, visited, rangeList_zero]
  | (k, .mk a cs) :: rest, i, p => by
    have ihc := add_signal_index_idx cs (i + 1) (i : Int)
    have ihr1 := add_signal_index_idx rest
      ((add_signal_index cs (i + 1) (i : Int)).2) p
    have ihr2 := add_signal_index_idx rest (i + 1) p
    have hc := add_signal_index_counter cs (i + 1) (i : Int)
    by_cases hb : a.type = some "branch"
    · rw [hc] at ihr1
      simp only [add_signal_index, visited, hb, if_true, List.length_cons,
        List.length_append, VNode.attrs, List.map_cons,
        List.map_append] at ihc ihr1 ihr2 ⊢
      rw [rangeList_succ, rangeList_append, List.map_cons, List.map_append,
        ihc, hc, ihr1]
    · simp only [add_signal_index, visited, hb, if_false, List.length_cons,
        List.length_append, List.length_nil, List.nil_append, Nat.zero_add,
        VNode.attrs, List.map_cons, List.map_append] at ihr2 ⊢
      rw [rangeList_succ, List.map_cons, ihr2]

/-- Every root-level entry of the annotated tree gets the `parent_index`
passed into the call. -/
theorem add_signal_index_root_parent : ∀ (t : VTree) (i : Nat) (p : Int),
    ∀ q ∈ (add_signal_index t i p).1, (VNode.attrs q.2).parentIdx = some p
  | [], _, _ => by simp [add_signal_index]
  | (k, .mk a cs) :: rest, i, p => by
    intro q hq
    simp only [add_signal_index, List.mem_cons] at hq
    rcases hq with rfl | hq
    · simp [VNode.attrs]
    · exact add_signal_index_root_parent rest _ p q hq

/-- Every visited branch node's children get the node's own index as their
`_parent_index_`. -/
theorem add_signal_index_children_parent : ∀ (t : VTree) (i : Nat) (p : Int),
    ∀ q ∈ visited (add_signal_index t i p).1,
      (VNode.attrs q.2).type = some "branch" →
      ∀ c ∈ VNode.children q.2,
        (VNode.attrs c.2).parentIdx
          = Option.map (fun n => (n : Int)) ((VNode.attrs q.2).idx)
  | [], _, _ => by simp [add_signal_index, visited]
  | (k, .mk a cs) :: rest, i, p => by
    intro q hq hqb c hc
    by_cases hb : a.type = some "branch"
    · simp only [add_signal_index, visited, VNode.attrs, hb, if_true,
        List.mem_cons, List.mem_append] at hq
      rcases hq with rfl | hq | hq
      · simp only [VNode.children] at hc
        have h := add_signal_index_root_parent cs (i + 1) (i : Int) c hc
        simpa [VNode.attrs] using h
      · exact add_signal_index_children_parent cs (i + 1) (i : Int) q hq hqb c hc
      · exact add_signal_index_children_parent rest _ p q hq hqb c hc
    · simp only [add_signal_index, visited, VNode.attrs, hb, if_false,
        List.nil_append, List.mem_cons] at hq
      rcases hq with rfl | hq
      · simp only [VNode.attrs] at hqb
        exact absurd hqb hb
      · exact add_signal_index_children_parent rest _ p q hq hqb c hc

/-- Every visited node of the annotated tree has both annotations set, with
`parent_index` strictly below its own index; the parent index is either the
one passed in or the index of a node of this subtree (hence at least `i`). -/
theorem add_signal_index_bounds : ∀ (t : VTree) (i : Nat) (p : Int),
    p < (i : Int) →
    ∀ q ∈ visited (add_signal_index t i p).1,
      ∃ j pj, (VNode.attrs q.2).idx = some j ∧
        (VNode.attrs q.2).parentIdx = some pj ∧
        pj < (j : Int) ∧ i ≤ j ∧ (pj = p ∨ (i : Int) ≤ pj)
  | [], _, _ => by simp [add_signal_index, visited]
  | (k, .mk a cs) :: rest, i, p => by
    intro hp q hq
    have hc := add_signal_index_counter cs (i + 1) (i : Int)
    by_cases hb : a.type = some "branch"
    · simp only [add_signal_index, visited, VNode.attrs, hb, if_true,
        List.mem_cons, List.mem_append] at hq
      rcases hq with rfl | hq | hq
      · refine ⟨i, p, by simp [VNode.attrs], by simp [VNode.attrs], hp,
          le_refl i, Or.inl rfl⟩
      · obtain ⟨j, pj, h1, h2, h3, h4, h5⟩ :=
          add_signal_index_bounds cs (i + 1) (i : Int)
            (by exact_mod_cast Nat.lt_succ_self i) q hq
        exact ⟨j, pj, h1, h2, h3, by omega, by rcases h5 with h | h <;>
          [right; right] <;> omega⟩
      · obtain ⟨j, pj, h1, h2, h3, h4, h5⟩ :=
          add_signal_index_bounds rest ((add_signal_index cs (i + 1) (i : Int)).2)
            p (by rw [hc]; omega) q hq
        rw [hc] at h4 h5
        exact ⟨j, pj, h1, h2, h3, by omega, by rcases h5 with h | h <;>
          [left; right] <;> [exact h; omega]⟩
    · simp only [add_signal_index, visited, VNode.attrs, hb, if_false,
        List.nil_append, List.mem_cons] at hq
      rcases hq with rfl | hq
      · exact ⟨i, p, by simp [VNode.attrs], by simp [VNode.attrs], hp,
          le_refl i, Or.inl rfl⟩
      · obtain ⟨j, pj, h1, h2, h3, h4, h5⟩ :=
          add_signal_index_bounds rest (i + 1) p (by omega) q hq
        exact ⟨j, pj, h1, h2, h3, by omega, by rcases h5 with h | h <;>
          [left; right] <;> [exact h; omega]⟩

/-- Among the visited nodes of the annotated tree, the ones whose
`_parent_index_` equals the `parent_index` passed into the call are exactly
the root-level entries, in order.  (With `p = -1`: a node has
`_parent_index_ == -1` iff it is a root-level entry.) -/
theorem add_signal_index_filter : ∀ (t : VTree) (i : Nat) (p : Int),
    p < (i : Int) →
    (visited (add_signal_index t i p).1).filter
        (fun q => decide ((VNode.attrs q.2).parentIdx = some p))
      = (add_signal_index t i p).1
  | [], _, _ => by simp [add_signal_index, visited]
  | (k, .mk a cs) :: rest, i, p => by
    intro hp
    have hc := add_signal_index_counter cs (i + 1) (i : Int)
    by_cases hb : a.type = some "branch"
    · have hcs : (visited (add_signal_index cs (i + 1) (i : Int)).1).filter
          (fun q => decide ((VNode.attrs q.2).parentIdx = some p)) = [] := by
        refine List.filter_eq_nil_iff.mpr ?_
        intro q hq
        obtain ⟨j, pj, _, h2, _, _, h5⟩ :=
          add_signal_index_bounds cs (i + 1) (i : Int)
            (by exact_mod_cast Nat.lt_succ_self i) q hq
        simp only [h2, decide_eq_true_eq, Option.some.injEq]
        rcases h5 with h | h <;> omega
      have hrest := add_signal_index_filter rest
        ((add_signal_index cs (i + 1) (i : Int)).2) p (by rw [hc]; omega)
      simp only [add_signal_index, visited, VNode.attrs, hb, if_true,
        List.filter_cons, List.filter_append, decide_eq_true_eq]
      simp only [add_signal_index, VNode.attrs] at hcs hrest
      simp [hcs, hrest]
    · have hrest := add_signal_index_filter rest (i + 1) p (by omega)
      simp only [add_signal_index, visited, VNode.attrs, hb, if_false,
        List.nil_append, List.filter_cons, decide_eq_true_eq]
      simp only [add_signal_index, VNode.attrs] at hrest
      simp [hrest]

theorem allTyped_cons_iff :
    allTyped ((k, VNode.mk a cs) :: rest) = true ↔
      (a.type.isSome = true ∧ allTyped cs = true ∧ allTyped rest = true) := by
  simp only [allTyped, allNodes, List.all_cons, List.all_append,
    Bool.and_eq_true, VNode.attrs]

theorem branchChildrenOnly_cons_iff :
    branchChildrenOnly ((k, VNode.mk a cs) :: rest) = true ↔
      ((cs = [] ∨ a.type = some "branch") ∧
        branchChildrenOnly cs = true ∧ branchChildrenOnly rest = true) := by
  simp only [branchChildrenOnly, allNodes, List.all_cons, List.all_append,
    Bool.and_eq_true, VNode.attrs, VNode.children, Bool.or_eq_true,
    List.isEmpty_iff, decide_eq_true_eq]

/-- On a tree whose children occur only under `branch` nodes, the code's
traversals visit every node. -/
theorem visited_eq_allNodes : ∀ (t : VTree),
    branchChildrenOnly t = true → visited t = allNodes t
  | [], _ => by simp [visited, allNodes]
  | (k, .mk a cs) :: rest, h => by
    obtain ⟨h1, h2, h3⟩ := branchChildrenOnly_cons_iff.mp h
    have ihc := visited_eq_allNodes cs h2
    have ihr := visited_eq_allNodes rest h3
    rcases h1 with rfl | hbr
    · simp [visited, allNodes, ihr, ite_self]
    · simp [visited, allNodes, hbr, ihc, ihr]

/-- `add_signal_index` preserves the branch-children-only property. -/
theorem branchChildrenOnly_index : ∀ (t : VTree) (i : Nat) (p : Int),
    branchChildrenOnly t = true →
    branchChildrenOnly ((add_signal_index t i p).1) = true
  | [], _, _, _ => by simp [add_signal_index, branchChildrenOnly, allNodes]
  | (k, .mk a cs) :: rest, i, p, h => by
    obtain ⟨h1, h2, h3⟩ := branchChildrenOnly_cons_iff.mp h
    by_cases hb : a.type = some "branch"
    · simp only [add_signal_index, hb, if_true]
      refine branchChildrenOnly_cons_iff.mpr
        ⟨Or.inr (by simp), branchChildrenOnly_index cs (i + 1) (i : Int) h2, ?_⟩
      exact branchChildrenOnly_index rest _ p h3
    · rcases h1 with rfl | hbr
      · simp only [add_signal_index, hb, if_false]
        exact branchChildrenOnly_cons_iff.mpr
          ⟨Or.inl rfl, by simp [branchChildrenOnly, allNodes],
            branchChildrenOnly_index rest _ p h3⟩
      · exact absurd hbr hb

/-- `add_signal_path` preserves the branch-children-only property. -/
theorem branchChildrenOnly_path : ∀ (t : VTree) (s : String),
    branchChildrenOnly t = true →
    branchChildrenOnly (add_signal_path t s) = true
  | [], _, _ => by simp [add_signal_path, branchChildrenOnly, allNodes]
  | (k, .mk a cs) :: rest, s, h => by
    obtain ⟨h1, h2, h3⟩ := branchChildrenOnly_cons_iff.mp h
    by_cases hb : a.type = some "branch"
    · simp only [add_signal_path, hb, if_true]
      exact branchChildrenOnly_cons_iff.mpr
        ⟨Or.inr (by simp), branchChildrenOnly_path cs _ h2,
          branchChildrenOnly_path rest s h3⟩
    · rcases h1 with rfl | hbr
      · simp only [add_signal_path, hb, if_false]
        exact branchChildrenOnly_cons_iff.mpr
          ⟨Or.inl rfl, by simp [branchChildrenOnly, allNodes],
            branchChildrenOnly_path rest s h3⟩
      · exact absurd hbr hb

/-- Both annotation passes preserve the top-level entry names, in order. -/
theorem add_signal_index_keys : ∀ (t : VTree) (i : Nat) (p : Int),
    (add_signal_index t i p).1.map Prod.fst = t.map Prod.fst
  | [], _, _ => by simp [add_signal_index]
  | (k, .mk a cs) :: rest, i, p => by
    simp only [add_signal_index, List.map_cons]
    exact congrArg (k :: ·) (add_signal_index_keys rest _ p)

theorem add_signal_path_keys : ∀ (t : VTree) (s : String),
    (add_signal_path t s).map Prod.fst = t.map Prod.fst
  | [], _ => by simp [add_signal_path]
  | (k, .mk a cs) :: rest, s => by
    simp only [add_signal_path, List.map_cons]
    exact congrArg (k :: ·) (add_signal_path_keys rest s)

/-- `add_signal_path` does not change which nodes are visited, nor their
names, `_index_` or `_parent_index_` annotations: pointwise over the visited
pre-order, name, index and parent index are unchanged. -/
theorem add_signal_path_visited : ∀ (t : VTree) (s : String),
    (visited (add_signal_path t s)).map
        (fun q => (q.1, (VNode.attrs q.2).idx, (VNode.attrs q.2).parentIdx))
      = (visited t).map
        (fun q => (q.1, (VNode.attrs q.2).idx, (VNode.attrs q.2).parentIdx))
  | [], _ => by simp [add_signal_path]
  | (k, .mk a cs) :: rest, s => by
    have ihr := add_signal_path_visited rest s
    by_cases hb : a.type = some "branch"
    · have ihc := add_signal_path_visited cs
        (if s.length > 0 then s ++ "_" ++ k else k)
      simp only [add_signal_path, visited, VNode.attrs, hb, if_true,
        List.map_cons, List.map_append] at ihc ihr ⊢
      rw [ihc, ihr]
    · simp only [add_signal_path, visited, VNode.attrs, hb, if_false,
        List.nil_append, List.map_cons] at ihr ⊢
      rw [ihr]

/-- After `add_signal_path`, every visited node has a `_signal_path_`. -/
theorem add_signal_path_some : ∀ (t : VTree) (s : String),
    ∀ q ∈ visited (add_signal_path t s), (VNode.attrs q.2).signalPath.isSome
  | [], _ => by simp [add_signal_path, visited]
  | (k, .mk a cs) :: rest, s => by
    intro q hq
    by_cases hb : a.type = some "branch"
    · simp only [add_signal_path, visited, VNode.attrs, hb, if_true,
        List.mem_cons, List.mem_append] at hq
      rcases hq with rfl | hq | hq
      · simp [VNode.attrs]
      · exact add_signal_path_some cs _ q hq
      · exact add_signal_path_some rest s q hq
    · simp only [add_signal_path, visited, VNode.attrs, hb, if_false,
        List.nil_append, List.mem_cons] at hq
      rcases hq with rfl | hq
      · simp [VNode.attrs]
      · exact add_signal_path_some rest s q hq

/-- `add_signal_path` satisfies the path-assignment contract. -/
theorem add_signal_path_ok : ∀ (t : VTree) (s : String),
    pathsOK s (add_signal_path t s)
  | [], _ => by simp [add_signal_path, pathsOK]
  | (k, .mk a cs) :: rest, s => by
    simp only [add_signal_path, pathsOK]
    refine ⟨trivial, fun hb => ?_, add_signal_path_ok rest s⟩
    simp only [hb, if_true]
    exact add_signal_path_ok cs _

/-- The output tags `element_map` can produce; none of them is among the
(input-vocabulary) spellings of `ignore_bounds_list`. -/
theorem element_map_values : ∀ s v, element_map s = some v →
    ignore_bounds_list.contains v = false := by
  intro s v h
  unfold element_map at h
  split at h <;> simp_all <;> subst h <;> decide

theorem signal_fields_ok_na (name : String) (a : Attrs) (i : Nat) (pi : Int)
    (u ty et : String)
    (h1 : a.idx = some i) (h2 : a.parentIdx = some pi) (h3 : a.uuid = some u)
    (h4 : a.type = some ty) (h5 : element_map (lower ty) = some et)
    (hd : a.datatype = none) :
    signal_fields name a =
      .ok ({ index := i, parent_index := pi, name := name, uuid := u,
             elem_type := et, data_type := "VSS_NA",
             unit := a.unit.getD "", minv := a.min.getD "INT64_MIN",
             maxv := a.max.getD "INT64_MIN",
             desc := a.description.getD "",
             enumv := (match a.enum with
                       | none => "\x7b 0 \x7d"
                       | some es => (es.foldl
                           (fun acc e => acc ++ "\"" ++ e ++ "\", ") "\x7b")
                           ++ "\x7d"),
             sensor := a.sensor.getD "", actuator := a.actuator.getD "" },
           []) := by
  have hc := element_map_values _ _ h5
  simp only [signal_fields, h1, h2, h3, h4, h5, hd, hc]
  cases a.min <;> cases a.max <;> simp [hc]

theorem signal_fields_ok_dt (name : String) (a : Attrs) (i : Nat) (pi : Int)
    (u ty et dt dtv : String)
    (h1 : a.idx = some i) (h2 : a.parentIdx = some pi) (h3 : a.uuid = some u)
    (h4 : a.type = some ty) (h5 : element_map (lower ty) = some et)
    (hd : a.datatype = some dt) (h6 : type_map (lower dt) = some dtv) :
    signal_fields name a =
      .ok ({ index := i, parent_index := pi, name := name, uuid := u,
             elem_type := et, data_type := dtv,
             unit := a.unit.getD "", minv := a.min.getD "INT64_MIN",
             maxv := a.max.getD "INT64_MIN",
             desc := a.description.getD "",
             enumv := (match a.enum with
                       | none => "\x7b 0 \x7d"
                       | some es => (es.foldl
                           (fun acc e => acc ++ "\"" ++ e ++ "\", ") "\x7b")
                           ++ "\x7d"),
             sensor := a.sensor.getD "", actuator := a.actuator.getD "" },
           []) := by
  have hc := element_map_values _ _ h5
  simp only [signal_fields, h1, h2, h3, h4, h5, hd, h6, hc]
  cases a.min <;> cases a.max <;> simp [hc]

theorem signal_fields_err_index (name : String) (a : Attrs)
    (h : a.idx = none) :
    signal_fields name a = .error (fail_key "_index_" a) := by
  simp only [signal_fields, h]

theorem signal_fields_err_parent (name : String) (a : Attrs) (i : Nat)
    (h1 : a.idx = some i) (h : a.parentIdx = none) :
    signal_fields name a = .error (fail_key "_parent_index_" a) := by
  simp only [signal_fields, h1, h]

theorem signal_fields_err_uuid (name : String) (a : Attrs) (i : Nat) (pi : Int)
    (h1 : a.idx = some i) (h2 : a.parentIdx = some pi) (h : a.uuid = none) :
    signal_fields name a = .error (fail_key "uuid" a) := by
  simp only [signal_fields, h1, h2, h]

theorem signal_fields_err_type (name : String) (a : Attrs) (i : Nat) (pi : Int)
    (u : String)
    (h1 : a.idx = some i) (h2 : a.parentIdx = some pi) (h3 : a.uuid = some u)
    (h : a.type = none) :
    signal_fields name a = .error (fail_key "type" a) := by
  simp only [signal_fields, h1, h2, h3, h]

theorem signal_fields_err_kind (name : String) (a : Attrs) (i : Nat) (pi : Int)
    (u ty : String)
    (h1 : a.idx = some i) (h2 : a.parentIdx = some pi) (h3 : a.uuid = some u)
    (h4 : a.type = some ty) (h : element_map (lower ty) = none) :
    signal_fields name a = .error (fail_key (lower ty) a) := by
  simp only [signal_fields, h1, h2, h3, h4, h]

theorem signal_fields_err_datatype (name : String) (a : Attrs) (i : Nat)
    (pi : Int) (u ty et dt : String)
    (h1 : a.idx = some i) (h2 : a.parentIdx = some pi) (h3 : a.uuid = some u)
    (h4 : a.type = some ty) (h5 : element_map (lower ty) = some et)
    (hd : a.datatype = some dt) (h : type_map (lower dt) = none) :
    signal_fields name a = .error (fail_datatype (lower dt) a) := by
  simp only [signal_fields, h1, h2, h3, h4, h5, hd, h]

/-- The `Ignoring specified min/max value` diagnostics of lines 211/218 are
dead code: a successful `signal_fields` never produces one, because the
membership test of lines 208/215 checks the mapped element tag (a `VSS_*`
string) against the list of value-type spellings, and no tag is in that
list. -/
theorem signal_fields_diags_nil : ∀ (name : String) (a : Attrs)
    (r : SigRecord) (d : List String),
    signal_fields name a = .ok (r, d) → d = [] := by
  intro name a r d h
  cases h1 : a.idx with
  | none => rw [signal_fields_err_index name a h1] at h; cases h
  | some i =>
  cases h2 : a.parentIdx with
  | none => rw [signal_fields_err_parent name a i h1 h2] at h; cases h
  | some pi =>
  cases h3 : a.uuid with
  | none => rw [signal_fields_err_uuid name a i pi h1 h2 h3] at h; cases h
  | some u =>
  cases h4 : a.type with
  | none => rw [signal_fields_err_type name a i pi u h1 h2 h3 h4] at h; cases h
  | some ty =>
  cases h5 : element_map (lower ty) with
  | none =>
    rw [signal_fields_err_kind name a i pi u ty h1 h2 h3 h4 h5] at h; cases h
  | some et =>
  cases hd : a.datatype with
  | none =>
    rw [signal_fields_ok_na name a i pi u ty et h1 h2 h3 h4 h5 hd] at h
    simp only [Except.ok.injEq, Prod.mk.injEq] at h
    exact h.2.symm
  | some dt =>
    cases h6 : type_map (lower dt) with
    | none =>
      rw [signal_fields_err_datatype name a i pi u ty et dt
        h1 h2 h3 h4 h5 hd h6] at h
      cases h
    | some dtv =>
      rw [signal_fields_ok_dt name a i pi u ty et dt dtv
        h1 h2 h3 h4 h5 hd h6] at h
      simp only [Except.ok.injEq, Prod.mk.injEq] at h
      exact h.2.symm

/-- `emit_signal` never emits a diagnostic alongside a record. -/
theorem emit_signal_diags_nil : ∀ (name : String) (a : Attrs) (s : String)
    (d : List String),
    emit_signal name a = .ok (s, d) → d = [] := by
  intro name a s d h
  unfold emit_signal at h
  cases hf : signal_fields name a with
  | error e => rw [hf] at h; cases h
  | ok rd =>
    rw [hf] at h
    simp only [Except.ok.injEq, Prod.mk.injEq] at h
    exact h.2 ▸ signal_fields_diags_nil name a rd.1 rd.2 (by rw [hf])

/-- Exhaustive characterization of the fatal outcomes of `emit_signal`'s
field computation: a missing `_index_`, `_parent_index_`, `uuid` or `type`
key, a kind string absent from `element_map`, or a value-type string absent
from `type_map`. -/
theorem signal_fields_error_cases : ∀ (name : String) (a : Attrs) (e : VErr),
    signal_fields name a = .error e →
    (a.idx = none ∧ e = fail_key "_index_" a) ∨
    (a.parentIdx = none ∧ e = fail_key "_parent_index_" a) ∨
    (a.uuid = none ∧ e = fail_key "uuid" a) ∨
    (a.type = none ∧ e = fail_key "type" a) ∨
    (∃ ty, a.type = some ty ∧ element_map (lower ty) = none ∧
      e = fail_key (lower ty) a) ∨
    (∃ dt, a.datatype = some dt ∧ type_map (lower dt) = none ∧
      e = fail_datatype (lower dt) a) := by
  intro name a e h
  cases h1 : a.idx with
  | none =>
    rw [signal_fields_err_index name a h1] at h
    exact Or.inl ⟨rfl, ((Except.error.injEq _ _).mp h.symm)⟩
  | some i =>
  cases h2 : a.parentIdx with
  | none =>
    rw [signal_fields_err_parent name a i h1 h2] at h
    exact Or.inr (Or.inl ⟨rfl, ((Except.error.injEq _ _).mp h.symm)⟩)
  | some pi =>
  cases h3 : a.uuid with
  | none =>
    rw [signal_fields_err_uuid name a i pi h1 h2 h3] at h
    exact Or.inr (Or.inr (Or.inl ⟨rfl, ((Except.error.injEq _ _).mp h.symm)⟩))
  | some u =>
  cases h4 : a.type with
  | none =>
    rw [signal_fields_err_type name a i pi u h1 h2 h3 h4] at h
    exact Or.inr (Or.inr (Or.inr (Or.inl
      ⟨rfl, ((Except.error.injEq _ _).mp h.symm)⟩)))
  | some ty =>
  cases h5 : element_map (lower ty) with
  | none =>
    rw [signal_fields_err_kind name a i pi u ty h1 h2 h3 h4 h5] at h
    exact Or.inr (Or.inr (Or.inr (Or.inr (Or.inl
      ⟨ty, rfl, h5, ((Except.error.injEq _ _).mp h.symm)⟩))))
  | some et =>
  cases hd : a.datatype with
  | none =>
    rw [signal_fields_ok_na name a i pi u ty et h1 h2 h3 h4 h5 hd] at h
    cases h
  | some dt =>
    cases h6 : type_map (lower dt) with
    | none =>
      rw [signal_fields_err_datatype name a i pi u ty et dt
        h1 h2 h3 h4 h5 hd h6] at h
      exact Or.inr (Or.inr (Or.inr (Or.inr (Or.inr
        ⟨dt, rfl, h6, ((Except.error.injEq _ _).mp h.symm)⟩))))
    | some dtv =>
      rw [signal_fields_ok_dt name a i pi u ty et dt dtv
        h1 h2 h3 h4 h5 hd h6] at h
      cases h

/-- `emit_signal` and `signal_fields` fail in exactly the same cases with the
same error. -/
theorem emit_signal_error_iff : ∀ (name : String) (a : Attrs) (e : VErr),
    emit_signal name a = .error e ↔ signal_fields name a = .error e := by
  intro name a e
  unfold emit_signal
  cases hf : signal_fields name a <;> simp

/-- Concatenation of a list of strings, in order. -/
def cat : List String → String
  | [] => ""
  | s :: l => s ++ cat l

theorem cat_append : ∀ (l1 l2 : List String),
    cat (l1 ++ l2) = cat l1 ++ cat l2
  | [], l2 => by simp [cat]
  | s :: l1, l2 => by
    simp [cat, cat_append l1 l2, String.append_assoc]

theorem except_map_eq_cases {α β γ ε : Type} {f : α → γ} {g : β → γ}
    {x : Except ε α} {y : Except ε β} (h : x.map f = y.map g) :
    (∃ e, x = .error e ∧ y = .error e) ∨
    (∃ a b, x = .ok a ∧ y = .ok b ∧ f a = g b) := by
  cases x <;> cases y <;> simp_all [Except.map]

/-- `generate_source` produces exactly the concatenation of the `records`
list (and the two fail identically). -/
theorem generate_source_fst : ∀ (t : VTree),
    (generate_source t).map Prod.fst = (records t).map cat
  | [] => by simp [generate_source, records, Except.map, cat]
  | (k, .mk a cs) :: rest => by
    have ihc := generate_source_fst cs
    have ihr := generate_source_fst rest
    simp only [generate_source, records]
    cases hemit : emit_signal k a with
    | error e => simp [Except.map]
    | ok sd =>
      obtain ⟨s, d⟩ := sd
      by_cases hb : a.type = some "branch"
      · simp only [hb, if_true]
        rcases except_map_eq_cases ihc with ⟨e1, hx1, hy1⟩ |
          ⟨sd1, l1, hx1, hy1, hv1⟩ <;> rw [hx1, hy1]
        · simp [Except.map]
        · rcases except_map_eq_cases ihr with ⟨e2, hx2, hy2⟩ |
            ⟨sd2, l2, hx2, hy2, hv2⟩ <;> rw [hx2, hy2]
          · simp [Except.map]
          · simp [Except.map, cat, cat_append, hv1, hv2,
              String.append_assoc]
      · simp only [hb, if_false]
        rcases except_map_eq_cases ihr with ⟨e2, hx2, hy2⟩ |
          ⟨sd2, l2, hx2, hy2, hv2⟩ <;> rw [hx2, hy2]
        · simp [Except.map]
        · simp [Except.map, cat, cat_append, hv2, String.append_assoc]

/-- The `records` list has one entry per visited node. -/
theorem records_length : ∀ (t : VTree) (l : List String),
    records t = .ok l → l.length = (visited t).length
  | [], l => by
    intro h
    simp only [records, Except.ok.injEq] at h
    simp [visited, ← h]
  | (k, .mk a cs) :: rest, l => by
    intro h
    simp only [records] at h
    cases hemit : emit_signal k a with
    | error e => rw [hemit] at h; cases h
    | ok sd =>
      rw [hemit] at h
      by_cases hb : a.type = some "branch"
      · rw [if_pos hb] at h
        cases hr1 : records cs with
        | error e => rw [hr1] at h; cases h
        | ok l1 =>
          rw [hr1] at h
          cases hr2 : records rest with
          | error e => rw [hr2] at h; cases h
          | ok l2 =>
            rw [hr2] at h
            cases h
            have e1 := records_length cs l1 hr1
            have e2 := records_length rest l2 hr2
            simp [visited, hb, e1, e2]
      · rw [if_neg hb] at h
        cases hr1 : records rest with
        | error e => rw [hr1] at h; cases h
        | ok l2 =>
          rw [hr1] at h
          cases h
          have e2 := records_length rest l2 hr1
          simp [visited, hb, e2]

/-- `generate_header` produces exactly the concatenation of the `macros`
list (and the two fail identically). -/
theorem generate_header_eq_macros : ∀ (t : VTree),
    generate_header t = (macros t).map cat
  | [] => by simp [generate_header, macros, Except.map, cat]
  | (k, .mk a cs) :: rest => by
    have ihc := generate_header_eq_macros cs
    have ihr := generate_header_eq_macros rest
    simp only [generate_header, macros]
    cases hp : a.signalPath with
    | none => simp [Except.map]
    | some p =>
    cases hi : a.idx with
    | none => simp [Except.map]
    | some i =>
      by_cases hb : a.type = some "branch"
      · simp only [hb, if_true, ihc, ihr]
        cases hm1 : macros cs with
        | error e => simp [Except.map]
        | ok l1 =>
          cases hm2 : macros rest with
          | error e => simp [Except.map]
          | ok l2 => simp [Except.map, cat, cat_append, String.append_assoc]
      · simp only [hb, if_false, ihr]
        cases hm2 : macros rest with
        | error e => simp [Except.map]
        | ok l2 => simp [Except.map, cat, cat_append, String.append_assoc]

/-- The `macros` list has one entry per visited node. -/
theorem macros_length : ∀ (t : VTree) (l : List String),
    macros t = .ok l → l.length = (visited t).length
  | [], l => by
    intro h
    simp only [macros, Except.ok.injEq] at h
    simp [visited, ← h]
  | (k, .mk a cs) :: rest, l => by
    intro h
    simp only [macros] at h
    cases hp : a.signalPath with
    | none => rw [hp] at h; cases h
    | some p =>
    cases hi : a.idx with
    | none => rw [hp, hi] at h; cases h
    | some i =>
      rw [hp, hi] at h
      by_cases hb : a.type = some "branch"
      · rw [if_pos hb] at h
        cases hm1 : macros cs with
        | error e => rw [hm1] at h; cases h
        | ok l1 =>
          rw [hm1] at h
          cases hm2 : macros rest with
          | error e => rw [hm2] at h; cases h
          | ok l2 =>
            rw [hm2] at h
            cases h
            simp [visited, hb, macros_length cs l1 hm1,
              macros_length rest l2 hm2]
      · rw [if_neg hb] at h
        cases hm2 : macros rest with
        | error e => rw [hm2] at h; cases h
        | ok l2 =>
          rw [hm2] at h
          cases h
          simp [visited, hb, macros_length rest l2 hm2]

/-- When every visited node carries `_signal_path_` and `_index_`, the macro
block consists of exactly one `#define VSS_<path>() vss_get_signal_by_index(<index>)`
line per visited node, in pre-order. -/
theorem macros_formula : ∀ (t : VTree),
    (∀ q ∈ visited t, (VNode.attrs q.2).signalPath.isSome = true ∧
      (VNode.attrs q.2).idx.isSome = true) →
    macros t = .ok ((visited t).map (fun q =>
      "#define VSS_" ++ ((VNode.attrs q.2).signalPath.getD "")
        ++ "() vss_get_signal_by_index("
        ++ toString ((VNode.attrs q.2).idx.getD 0) ++ ")\n"))
  | [] => by intro _; simp [macros, visited]
  | (k, .mk a cs) :: rest => by
    intro h
    obtain ⟨hp0, hi0⟩ := h (k, .mk a cs) (by simp [visited])
    rw [Option.isSome_iff_exists] at hp0 hi0
    obtain ⟨p, hp⟩ := hp0
    obtain ⟨i, hi⟩ := hi0
    simp only [VNode.attrs] at hp hi
    by_cases hb : a.type = some "branch"
    · have hc := macros_formula cs (fun q hq => h q
        (by simp only [visited, List.mem_cons, List.mem_append, hb, if_true]
            exact Or.inr (Or.inl hq)))
      have hr := macros_formula rest (fun q hq => h q
        (by simp only [visited, List.mem_cons, List.mem_append, hb, if_true]
            exact Or.inr (Or.inr hq)))
      simp only [macros, visited, hp, hi, hb, if_true, hc, hr, VNode.attrs,
        List.map_cons, List.map_append, Option.getD_some]
    · have hr := macros_formula rest (fun q hq => h q
        (by simp only [visited, List.mem_cons, List.mem_append, hb, if_false,
              List.nil_append]
            exact Or.inr hq))
      simp only [macros, visited, hp, hi, hb, if_false, hr, VNode.attrs,
        List.map_cons, List.map_append, List.nil_append, Option.getD_some]

/-- If any visited node's emission fails, the whole record-block generation
fails (with the first error encountered): no source artifact is produced. -/
theorem generate_source_error_of_emit : ∀ (t : VTree) (k : String)
    (n : VNode) (e' : VErr),
    (k, n) ∈ visited t → emit_signal k (VNode.attrs n) = .error e' →
    ∃ e, generate_source t = .error e
  | [], _, _, _ => by simp [visited]
  | (k0, .mk a cs) :: rest, k, n, e' => by
    intro hmem hemit
    cases hemit0 : emit_signal k0 a with
    | error e0 =>
      exact ⟨e0, by simp only [generate_source]; rw [hemit0]⟩
    | ok sd =>
      obtain ⟨s, d⟩ := sd
      by_cases hb : a.type = some "branch"
      · simp only [visited, List.mem_cons, List.mem_append, hb,
          if_true] at hmem
        rcases hmem with heq | hm | hm
        · cases heq
          simp only [VNode.attrs] at hemit
          rw [hemit0] at hemit
          cases hemit
        · obtain ⟨e, he⟩ := generate_source_error_of_emit cs k n e' hm hemit
          exact ⟨e, by
            simp only [generate_source]
            rw [hemit0, if_pos hb, he]⟩
        · cases hg1 : generate_source cs with
          | error e1 =>
            exact ⟨e1, by
              simp only [generate_source]
              rw [hemit0, if_pos hb, hg1]⟩
          | ok sd1 =>
            obtain ⟨e, he⟩ := generate_source_error_of_emit rest k n e' hm hemit
            exact ⟨e, by
              simp only [generate_source]
              rw [hemit0, if_pos hb, hg1, he]⟩
      · simp only [visited, List.mem_cons, hb, if_false,
          List.nil_append] at hmem
        rcases hmem with heq | hm
        · cases heq
          simp only [VNode.attrs] at hemit
          rw [hemit0] at hemit
          cases hemit
        · obtain ⟨e, he⟩ := generate_source_error_of_emit rest k n e' hm hemit
          exact ⟨e, by
            simp only [generate_source]
            rw [hemit0, if_neg hb, he]⟩

/-- Conversely, a record-block failure always originates in the emission of
some visited node. -/
theorem generate_source_error_node : ∀ (t : VTree) (e : VErr),
    generate_source t = .error e →
    ∃ k n, (k, n) ∈ visited t ∧ emit_signal k (VNode.attrs n) = .error e
  | [], e => by intro h; simp [generate_source] at h
  | (k0, .mk a cs) :: rest, e => by
    intro h
    simp only [generate_source] at h
    cases hemit0 : emit_signal k0 a with
    | error e0 =>
      rw [hemit0] at h
      cases h
      exact ⟨k0, .mk a cs, by simp [visited], by
        simpa [VNode.attrs] using hemit0⟩
    | ok sd =>
      obtain ⟨s, d⟩ := sd
      rw [hemit0] at h
      by_cases hb : a.type = some "branch"
      · rw [if_pos hb] at h
        cases hg1 : generate_source cs with
        | error e1 =>
          rw [hg1] at h
          cases h
          obtain ⟨k, n, hm, he⟩ := generate_source_error_node cs e hg1
          exact ⟨k, n, by
            simp only [visited, List.mem_cons, List.mem_append, hb, if_true]
            exact Or.inr (Or.inl hm), he⟩
        | ok sd1 =>
          rw [hg1] at h
          cases hg2 : generate_source rest with
          | error e2 =>
            rw [hg2] at h
            cases h
            obtain ⟨k, n, hm, he⟩ := generate_source_error_node rest e hg2
            exact ⟨k, n, by
              simp only [visited, List.mem_cons, List.mem_append, hb, if_true]
              exact Or.inr (Or.inr hm), he⟩
          | ok sd2 => rw [hg2] at h; cases h
      · rw [if_neg hb] at h
        cases hg2 : generate_source rest with
        | error e2 =>
          rw [hg2] at h
          cases h
          obtain ⟨k, n, hm, he⟩ := generate_source_error_node rest e hg2
          exact ⟨k, n, by
            simp only [visited, List.mem_cons, hb, if_false, List.nil_append]
            exact Or.inr hm, he⟩
        | ok sd2 => rw [hg2] at h; cases h

/-- Dropping the children of non-`branch` nodes commutes with indexing: the
indexing pass never looks inside a non-`branch` node's children. -/
theorem prune_index : ∀ (t : VTree) (i : Nat) (p : Int),
    add_signal_index (pruneNonBranch t) i p
      = (pruneNonBranch ((add_signal_index t i p).1), (add_signal_index t i p).2)
  | [], i, p => by simp [add_signal_index, pruneNonBranch]
  | (k, .mk a cs) :: rest, i, p => by
    by_cases hb : a.type = some "branch"
    · have ihc := prune_index cs (i + 1) (i : Int)
      have ihr := prune_index rest ((add_signal_index cs (i + 1) (i : Int)).2) p
      simp only [pruneNonBranch, add_signal_index, VNode.attrs, hb, if_true,
        ihc, ihr]
    · have ihr := prune_index rest (i + 1) p
      simp only [pruneNonBranch, add_signal_index, VNode.attrs, hb, if_false,
        ihr]

/-- Dropping the children of non-`branch` nodes commutes with path
assignment. -/
theorem prune_path : ∀ (t : VTree) (s : String),
    add_signal_path (pruneNonBranch t) s = pruneNonBranch (add_signal_path t s)
  | [], s => by simp [add_signal_path, pruneNonBranch]
  | (k, .mk a cs) :: rest, s => by
    by_cases hb : a.type = some "branch"
    · have ihc := prune_path cs (if s.length > 0 then s ++ "_" ++ k else k)
      have ihr := prune_path rest s
      simp only [pruneNonBranch, add_signal_path, VNode.attrs, hb, if_true,
        ihc, ihr]
    · have ihr := prune_path rest s
      simp only [pruneNonBranch, add_signal_path, VNode.attrs, hb, if_false,
        ihr]

/-- Dropping the children of non-`branch` nodes does not change the emitted
record block: record emission never recurses into them. -/
theorem prune_source : ∀ (t : VTree),
    generate_source (pruneNonBranch t) = generate_source t
  | [] => by simp [pruneNonBranch]
  | (k, .mk a cs) :: rest => by
    have ihr := prune_source rest
    by_cases hb : a.type = some "branch"
    · have ihc := prune_source cs
      simp only [pruneNonBranch, generate_source, VNode.attrs, hb, if_true,
        ihc, ihr]
    · simp only [pruneNonBranch, generate_source, VNode.attrs, hb, if_false,
        ihr]

/-- Dropping the children of non-`branch` nodes does not change the emitted
macro block. -/
theorem prune_header : ∀ (t : VTree),
    generate_header (pruneNonBranch t) = generate_header t
  | [] => by simp [pruneNonBranch]
  | (k, .mk a cs) :: rest => by
    have ihr := prune_header rest
    by_cases hb : a.type = some "branch"
    · have ihc := prune_header cs
      simp only [pruneNonBranch, generate_header, VNode.attrs, hb, if_true,
        ihc, ihr]
    · simp only [pruneNonBranch, generate_header, VNode.attrs, hb, if_false,
        ihr]

/-- The annotated tree of `__main__` (vspec2c.py lines 320-321): indexing
from counter 0 with root parent index -1, then path assignment with the
empty parent path. -/
def annotate_tree (t : VTree) : VTree :=
  add_signal_path ((add_signal_index t 0 (-1)).1) ""

theorem add_signal_index_visited_fst : ∀ (t : VTree) (i : Nat) (p : Int),
    (visited (add_signal_index t i p).1).map Prod.fst
      = (visited t).map Prod.fst
  | [], _, _ => by simp [add_signal_index, visited]
  | (k, .mk a cs) :: rest, i, p => by
    by_cases hb : a.type = some "branch"
    · have ihc := add_signal_index_visited_fst cs (i + 1) (i : Int)
      have ihr := add_signal_index_visited_fst rest
        ((add_signal_index cs (i + 1) (i : Int)).2) p
      simp only [add_signal_index, visited, VNode.attrs, hb, if_true,
        List.map_cons, List.map_append] at ihc ihr ⊢
      rw [ihc, ihr]
    · have ihr := add_signal_index_visited_fst rest (i + 1) p
      simp only [add_signal_index, visited, VNode.attrs, hb, if_false,
        List.nil_append, List.map_cons] at ihr ⊢
      rw [ihr]

theorem add_signal_index_visited_type : ∀ (t : VTree) (i : Nat) (p : Int),
    (visited (add_signal_index t i p).1).map (fun q => (VNode.attrs q.2).type)
      = (visited t).map (fun q => (VNode.attrs q.2).type)
  | [], _, _ => by simp [add_signal_index, visited]
  | (k, .mk a cs) :: rest, i, p => by
    by_cases hb : a.type = some "branch"
    · have ihc := add_signal_index_visited_type cs (i + 1) (i : Int)
      have ihr := add_signal_index_visited_type rest
        ((add_signal_index cs (i + 1) (i : Int)).2) p
      simp only [add_signal_index, visited, VNode.attrs, hb, if_true,
        List.map_cons, List.map_append] at ihc ihr ⊢
      rw [ihc, ihr]
    · have ihr := add_signal_index_visited_type rest (i + 1) p
      simp only [add_signal_index, visited, VNode.attrs, hb, if_false,
        List.nil_append, List.map_cons] at ihr ⊢
      rw [ihr]

theorem add_signal_path_visited_type : ∀ (t : VTree) (s : String),
    (visited (add_signal_path t s)).map (fun q => (VNode.attrs q.2).type)
      = (visited t).map (fun q => (VNode.attrs q.2).type)
  | [], _ => by simp [add_signal_path]
  | (k, .mk a cs) :: rest, s => by
    have ihr := add_signal_path_visited_type rest s
    by_cases hb : a.type = some "branch"
    · have ihc := add_signal_path_visited_type cs
        (if s.length > 0 then s ++ "_" ++ k else k)
      simp only [add_signal_path, visited, VNode.attrs, hb, if_true,
        List.map_cons, List.map_append] at ihc ihr ⊢
      rw [ihc, ihr]
    · simp only [add_signal_path, visited, VNode.attrs, hb, if_false,
        List.nil_append, List.map_cons] at ihr ⊢
      rw [ihr]

theorem visited_subset_allNodes : ∀ (t : VTree),
    ∀ q ∈ visited t, q ∈ allNodes t
  | [] => by simp [visited, allNodes]
  | (k, .mk a cs) :: rest => by
    intro q hq
    by_cases hb : a.type = some "branch"
    · simp only [visited, hb, if_true, List.mem_cons, List.mem_append] at hq
      simp only [allNodes, List.mem_cons, List.mem_append]
      rcases hq with rfl | hq | hq
      · exact Or.inl rfl
      · exact Or.inr (Or.inl (visited_subset_allNodes cs q hq))
      · exact Or.inr (Or.inr (visited_subset_allNodes rest q hq))
    · simp only [visited, hb, if_false, List.nil_append, List.mem_cons] at hq
      simp only [allNodes, List.mem_cons, List.mem_append]
      rcases hq with rfl | hq
      · exact Or.inl rfl
      · exact Or.inr (Or.inr (visited_subset_allNodes rest q hq))

/-- After the full annotation pipeline, every visited node carries `_index_`,
`_parent_index_` and `_signal_path_`. -/
theorem annotate_tree_visited_some : ∀ (t : VTree),
    ∀ q ∈ visited (annotate_tree t),
      (VNode.attrs q.2).idx.isSome = true ∧
      (VNode.attrs q.2).parentIdx.isSome = true ∧
      (VNode.attrs q.2).signalPath.isSome = true := by
  intro t q hq
  simp only [annotate_tree] at hq
  have hpath := add_signal_path_some ((add_signal_index t 0 (-1)).1) "" q hq
  have htrip := add_signal_path_visited ((add_signal_index t 0 (-1)).1) ""
  have hmem := List.mem_map_of_mem
    (fun q => (q.1, (VNode.attrs q.2).idx, (VNode.attrs q.2).parentIdx)) hq
  rw [htrip] at hmem
  obtain ⟨q', hq', heq⟩ := List.mem_map.mp hmem
  obtain ⟨j, pj, h1, h2, _, _, _⟩ :=
    add_signal_index_bounds t 0 (-1) (by norm_num) q' hq'
  simp only [Prod.mk.injEq] at heq
  obtain ⟨-, hidx, hpidx⟩ := heq
  refine ⟨?_, ?_, hpath⟩
  · rw [← hidx, h1]; rfl
  · rw [← hpidx, h2]; rfl

/-- The annotation pipeline does not change how many nodes are visited. -/
theorem annotate_tree_visited_length : ∀ (t : VTree),
    (visited (annotate_tree t)).length = (visited t).length := by
  intro t
  have h1 := congrArg List.length
    (add_signal_path_visited ((add_signal_index t 0 (-1)).1) "")
  have h2 := congrArg List.length (add_signal_index_idx t 0 (-1))
  simp only [List.length_map] at h1 h2
  rw [rangeList_length] at h2
  simp only [annotate_tree]
  omega

/-- The annotation pipeline does not change the visited nodes' names. -/
theorem annotate_tree_visited_fst : ∀ (t : VTree),
    (visited (annotate_tree t)).map Prod.fst = (visited t).map Prod.fst := by
  intro t
  have h1 := add_signal_path_visited ((add_signal_index t 0 (-1)).1) ""
  have h2 := add_signal_index_visited_fst t 0 (-1)
  have h3 := congrArg (List.map (fun x : String × Option Nat × Option Int => x.1)) h1
  simp only [List.map_map] at h3
  simp only [annotate_tree]
  calc (visited (add_signal_path ((add_signal_index t 0 (-1)).1) "")).map Prod.fst
      = (visited ((add_signal_index t 0 (-1)).1)).map Prod.fst := h3
    _ = (visited t).map Prod.fst := h2

/-- The annotation pipeline does not change the visited nodes' kinds. -/
theorem annotate_tree_visited_type : ∀ (t : VTree),
    (visited (annotate_tree t)).map (fun q => (VNode.attrs q.2).type)
      = (visited t).map (fun q => (VNode.attrs q.2).type) := by
  intro t
  simp only [annotate_tree]
  rw [add_signal_path_visited_type, add_signal_index_visited_type]

/-- Combined well-formedness as the code's traversals require it: every node
carries a kind (the code reads `v['type']` unguarded), and children occur
only under nodes of kind exactly `branch` (the only kind recursed into). -/
def wellFormedCode (t : VTree) : Bool := allTyped t && branchChildrenOnly t

/-- The two-level scenario of the specification: a `branch` root with a
sensor child and an attribute child. -/
def vspec_ex : VTree :=
  [("Root", .mk { type := some "branch", uuid := some "u0" }
    [("a", .mk { type := some "sensor", uuid := some "u1",
                 datatype := some "int8" } []),
     ("b", .mk { type := some "attribute", uuid := some "u2",
                 datatype := some "string" } [])])]

/-- A restricted-branch (`rbranch`) node carrying a child: branch-like by the
specification's definition, but not recursed into by the code. -/
def rbranch_ex : VTree :=
  [("top", .mk { type := some "rbranch", uuid := some "u0" }
    [("abc", .mk { type := some "sensor", uuid := some "u1" } [])])]

/-- For every tree that is well-formed in the code's sense (every node
typed, children only under kind `branch`), the indexing pass assigns the
indices `0..N-1` in pre-order with `N` the total node count, every node's
`_parent_index_` is strictly below its `_index_`, the nodes with
`_parent_index_ == -1` are exactly the root-level entries, and every branch
node's children carry its index as their `_parent_index_`. -/
theorem claim_C1 (t : VTree) (h : wellFormedCode t = true) :
    (add_signal_index t 0 (-1)).2 = (allNodes t).length ∧
    (allNodes ((add_signal_index t 0 (-1)).1)).map
        (fun q => (VNode.attrs q.2).idx)
      = (rangeList 0 (allNodes t).length).map some ∧
    (∀ q ∈ allNodes ((add_signal_index t 0 (-1)).1),
      ∃ j pj, (VNode.attrs q.2).idx = some j ∧
        (VNode.attrs q.2).parentIdx = some pj ∧ pj < (j : Int)) ∧
    ((allNodes ((add_signal_index t 0 (-1)).1)).filter
        (fun q => decide ((VNode.attrs q.2).parentIdx = some (-1)))
      = (add_signal_index t 0 (-1)).1) ∧
    (∀ q ∈ allNodes ((add_signal_index t 0 (-1)).1),
      (VNode.attrs q.2).type = some "branch" →
      ∀ c ∈ VNode.children q.2,
        (VNode.attrs c.2).parentIdx
          = Option.map (fun n => (n : Int)) ((VNode.attrs q.2).idx)) := by
  have hb : branchChildrenOnly t = true := by
    simp only [wellFormedCode, Bool.and_eq_true] at h
    exact h.2
  have hbt1 : branchChildrenOnly ((add_signal_index t 0 (-1)).1) = true :=
    branchChildrenOnly_index t 0 (-1) hb
  have hv1 : visited ((add_signal_index t 0 (-1)).1)
      = allNodes ((add_signal_index t 0 (-1)).1) :=
    visited_eq_allNodes _ hbt1
  have hv0 : visited t = allNodes t := visited_eq_allNodes t hb
  refine ⟨?_, ?_, ?_, ?_, ?_⟩
  · rw [add_signal_index_counter, hv0]; omega
  · rw [← hv1, ← hv0]
    exact add_signal_index_idx t 0 (-1)
  · intro q hq
    rw [← hv1] at hq
    obtain ⟨j, pj, h1, h2, h3, -, -⟩ :=
      add_signal_index_bounds t 0 (-1) (by norm_num) q hq
    exact ⟨j, pj, h1, h2, h3⟩
  · rw [← hv1]
    exact add_signal_index_filter t 0 (-1) (by norm_num)
  · intro q hq
    rw [← hv1] at hq
    exact add_signal_index_children_parent t 0 (-1) q hq

/-- The claim fails on the code for a tree that the specification itself
calls well-formed: an `rbranch` node may own children (branch-like), but the
indexing pass does not recurse into `rbranch`, so of this 2-node tree only
one node is indexed (`N = 2`, counter stops at 1, the child keeps no
index). -/
theorem claim_C1_counterexample :
    wellFormedSpec rbranch_ex = true ∧
    (allNodes rbranch_ex).length = 2 ∧
    (add_signal_index rbranch_ex 0 (-1)).2 = 1 ∧
    (allNodes ((add_signal_index rbranch_ex 0 (-1)).1)).map
        (fun q => (VNode.attrs q.2).idx) = [some 0, none] := by
  refine ⟨?_, ?_, ?_, ?_⟩
  · simp [wellFormedSpec, allNodes, rbranch_ex, VNode.attrs, VNode.children]
  · simp [allNodes, rbranch_ex]
  · simp [add_signal_index, rbranch_ex]
  · simp [add_signal_index, rbranch_ex, allNodes, VNode.attrs]

theorem claim_C1_witness :
    (allNodes ((add_signal_index vspec_ex 0 (-1)).1)).map
        (fun q => (VNode.attrs q.2).idx)
      = (rangeList 0 (allNodes vspec_ex).length).map some :=
  (claim_C1 vspec_ex (by
    simp [wellFormedCode, allTyped, branchChildrenOnly, allNodes, vspec_ex,
      VNode.attrs, VNode.children])).2.1

def root_attrs : Attrs := { type := some "branch", uuid := some "u0" }

def root_children : VTree :=
  [("a", .mk { type := some "sensor", uuid := some "u1",
               datatype := some "int8" } []),
   ("b", .mk { type := some "attribute", uuid := some "u2",
               datatype := some "string" } [])]

/-- Amended C4: each of the four traversals recurses into a node's children
exactly when the node's kind is the literal `branch`; children of any other
kind (including `rbranch`) are never entered — dropping them changes no
pass's result — while a `branch` node's children are entered (they are
visited and the counter is threaded through them). -/
theorem claim_C4 :
    (∀ (t : VTree) (i : Nat) (p : Int),
      add_signal_index (pruneNonBranch t) i p
        = (pruneNonBranch ((add_signal_index t i p).1),
           (add_signal_index t i p).2)) ∧
    (∀ (t : VTree) (s : String),
      add_signal_path (pruneNonBranch t) s
        = pruneNonBranch (add_signal_path t s)) ∧
    (∀ t : VTree, generate_source (pruneNonBranch t) = generate_source t) ∧
    (∀ t : VTree, generate_header (pruneNonBranch t) = generate_header t) ∧
    (∀ (k : String) (a : Attrs) (cs rest : VTree),
      a.type = some "branch" →
      visited ((k, VNode.mk a cs) :: rest)
        = (k, VNode.mk a cs) :: (visited cs ++ visited rest)) ∧
    (∀ (k : String) (a : Attrs) (cs rest : VTree) (i : Nat) (p : Int),
      a.type = some "branch" →
      (add_signal_index ((k, VNode.mk a cs) :: rest) i p).2
        = (add_signal_index rest
            ((add_signal_index cs (i + 1) (i : Int)).2) p).2) :=
  ⟨prune_index, prune_path, prune_source, prune_header,
   fun _ _ _ _ hb => by simp [visited, hb],
   fun _ _ _ _ _ _ hb => by simp [add_signal_index, hb]⟩

/-- The claim as stated fails: `rbranch` is branch-like per the
specification, yet neither annotation pass enters an `rbranch` node's
children — after both passes the child `abc` carries no index, no parent
index and no path. -/
theorem claim_C4_counterexample :
    wellFormedSpec rbranch_ex = true ∧
    add_signal_path ((add_signal_index rbranch_ex 0 (-1)).1) ""
      = [("top", VNode.mk
          { type := some "rbranch", uuid := some "u0", idx := some 0,
            parentIdx := some (-1), signalPath := some "top" }
          [("abc", VNode.mk { type := some "sensor", uuid := some "u1" }
            [])])] := by
  constructor
  · simp [wellFormedSpec, allNodes, rbranch_ex, VNode.attrs, VNode.children]
  · simp [add_signal_index, add_signal_path, rbranch_ex]

theorem claim_C4_witness :
    visited [("Root", VNode.mk root_attrs root_children)]
      = ("Root", VNode.mk root_attrs root_children)
          :: (visited root_children ++ visited []) :=
  claim_C4.2.2.2.2.1 "Root" root_attrs root_children [] (by rfl)

/-- Amended C5: the path pass assigns `parent + "_" + name` (bare name at the
root), recursing into children of nodes of kind exactly `branch`; on trees
well-formed in the code's sense every node is assigned a path, and
declaration order of the entries is preserved. -/
theorem claim_C5 (t : VTree) (h : wellFormedCode t = true) :
    (∀ s, pathsOK s (add_signal_path t s)) ∧
    ((add_signal_path t "").map Prod.fst = t.map Prod.fst) ∧
    (∀ q ∈ allNodes (add_signal_path t ""),
      (VNode.attrs q.2).signalPath.isSome = true) := by
  have hb : branchChildrenOnly t = true := by
    simp only [wellFormedCode, Bool.and_eq_true] at h
    exact h.2
  refine ⟨fun s => add_signal_path_ok t s, add_signal_path_keys t "", ?_⟩
  intro q hq
  rw [← visited_eq_allNodes _ (branchChildrenOnly_path t "" hb)] at hq
  exact add_signal_path_some t "" q hq

/-- The claim as stated fails: the path pass does not recurse into the
children of a branch-like `rbranch` node, so the child `abc` is assigned no
path at all (the claim requires `top_abc`). -/
theorem claim_C5_counterexample :
    wellFormedSpec rbranch_ex = true ∧
    add_signal_path rbranch_ex ""
      = [("top", VNode.mk
          { type := some "rbranch", uuid := some "u0",
            signalPath := some "top" }
          [("abc", VNode.mk { type := some "sensor", uuid := some "u1" }
            [])])] := by
  constructor
  · simp [wellFormedSpec, allNodes, rbranch_ex, VNode.attrs, VNode.children]
  · simp [add_signal_path, rbranch_ex]

theorem claim_C5_witness :
    (add_signal_path vspec_ex "").map Prod.fst = vspec_ex.map Prod.fst :=
  (claim_C5 vspec_ex (by
    simp [wellFormedCode, allTyped, branchChildrenOnly, allNodes, vspec_ex,
      VNode.attrs, VNode.children])).2.1

theorem fail_key_path (key pth : String) (a : Attrs)
    (h : a.signalPath = some pth) : fail_key key a = .keyMissing key pth := by
  simp [fail_key, h]

theorem fail_datatype_path (key pth : String) (a : Attrs)
    (h : a.signalPath = some pth) :
    fail_datatype key a = .illegalDataType key pth := by
  simp [fail_datatype, h]

/-- Replacing a node's value-type string by one with the same lower-case form
does not change the emitted record: the value-type table is consulted with
the lower-cased name only. -/
theorem emit_signal_lower_congr (k : String) (a : Attrs) (s1 s2 : String)
    (h : lower s1 = lower s2) :
    emit_signal k { a with datatype := some s1 }
      = emit_signal k { a with datatype := some s2 } := by
  have hs : signal_fields k { a with datatype := some s1 }
      = signal_fields k { a with datatype := some s2 } := by
    simp only [signal_fields, fail_key, fail_datatype]
    rw [h]
  unfold emit_signal
  rw [hs]

/-- The failing input of C2: a `sensor` of value-type `int8` with a supplied
`min` of 5.  The claim says the emitted minimum is the sentinel and a
diagnostic is printed; the code emits the 5 verbatim and prints nothing. -/
def int8_min_ex : Attrs :=
  { type := some "sensor", uuid := some "u1", datatype := some "int8",
    min := some "5", idx := some 0, parentIdx := some (-1),
    signalPath := some "S" }

/-- C2 evaluated at the failing input: the record's minimum field is the
supplied "5", not the sentinel "INT64_MIN", and the diagnostic list is empty
(lines 208/215 compare the element tag `VSS_SENSOR` against value-type
spellings, so the ignore branch cannot fire). -/
theorem claim_C2 :
    signal_fields "S" int8_min_ex =
      .ok ({ index := 0, parent_index := -1, name := "S", uuid := "u1",
             elem_type := "VSS_SENSOR", data_type := "VSS_INT8", unit := "",
             minv := "5", maxv := "INT64_MIN", desc := "",
             enumv := "\x7b 0 \x7d", sensor := "", actuator := "" }, []) ∧
    emit_signal "S" int8_min_ex =
      .ok (format_signal
        { index := 0, parent_index := -1, name := "S", uuid := "u1",
          elem_type := "VSS_SENSOR", data_type := "VSS_INT8", unit := "",
          minv := "5", maxv := "INT64_MIN", desc := "",
          enumv := "\x7b 0 \x7d", sensor := "", actuator := "" }, []) := by
  have h : signal_fields "S" int8_min_ex =
      .ok ({ index := 0, parent_index := -1, name := "S", uuid := "u1",
             elem_type := "VSS_SENSOR", data_type := "VSS_INT8", unit := "",
             minv := "5", maxv := "INT64_MIN", desc := "",
             enumv := "\x7b 0 \x7d", sensor := "", actuator := "" }, []) := by
    simp [signal_fields, int8_min_ex, element_map, type_map,
      ignore_bounds_list,
      show lower "sensor" = "sensor" from by decide,
      show lower "int8" = "int8" from by decide]
  refine ⟨h, ?_⟩
  unfold emit_signal
  rw [h]

/-- C8: a node without a value-type emits successfully with the `VSS_NA`
tag, and the value-type lookup is keyed by the lower-cased name. -/
theorem claim_C8 :
    (∀ (k : String) (a : Attrs) (i : Nat) (pi : Int) (u ty et : String),
      a.idx = some i → a.parentIdx = some pi → a.uuid = some u →
      a.type = some ty → element_map (lower ty) = some et →
      a.datatype = none →
      ∃ r d, signal_fields k a = .ok (r, d) ∧ r.data_type = "VSS_NA" ∧
        emit_signal k a = .ok (format_signal r, d)) ∧
    (∀ (k : String) (a : Attrs) (s1 s2 : String), lower s1 = lower s2 →
      emit_signal k { a with datatype := some s1 }
        = emit_signal k { a with datatype := some s2 }) := by
  constructor
  · intro k a i pi u ty et h1 h2 h3 h4 h5 hd
    have h := signal_fields_ok_na k a i pi u ty et h1 h2 h3 h4 h5 hd
    refine ⟨_, _, h, rfl, ?_⟩
    unfold emit_signal
    rw [h]
  · exact emit_signal_lower_congr

def na_ex : Attrs :=
  { type := some "sensor", uuid := some "u9", idx := some 3,
    parentIdx := some 0, signalPath := some "P" }

theorem claim_C8_witness :
    emit_signal "P" { na_ex with datatype := some "INT8" }
      = emit_signal "P" { na_ex with datatype := some "int8" } :=
  claim_C8.2 "P" na_ex "INT8" "int8" (by decide)

/-- C6: a kind string absent from `element_map`, or a value-type string
absent from `type_map`, makes emission fail fatally with an error carrying
the node's full path and the (lower-cased) attempted name, under exit code
255; any such failure among the visited nodes aborts record generation, and
an aborted record generation means the definitions artifact is never
written. -/
theorem claim_C6 :
    (∀ (k : String) (a : Attrs) (i : Nat) (pi : Int) (u ty pth : String),
      a.idx = some i → a.parentIdx = some pi → a.uuid = some u →
      a.type = some ty → a.signalPath = some pth →
      element_map (lower ty) = none →
      emit_signal k a = .error (.keyMissing (lower ty) pth) ∧
      exit_code (.keyMissing (lower ty) pth) = 255) ∧
    (∀ (k : String) (a : Attrs) (i : Nat) (pi : Int)
        (u ty et dt pth : String),
      a.idx = some i → a.parentIdx = some pi → a.uuid = some u →
      a.type = some ty → a.signalPath = some pth →
      element_map (lower ty) = some et → a.datatype = some dt →
      type_map (lower dt) = none →
      emit_signal k a = .error (.illegalDataType (lower dt) pth) ∧
      exit_code (.illegalDataType (lower dt) pth) = 255) ∧
    (∀ (t : VTree) (k : String) (n : VNode) (e' : VErr),
      (k, n) ∈ visited t → emit_signal k (VNode.attrs n) = .error e' →
      ∃ e, generate_source t = .error e) ∧
    (∀ (t : VTree) (hn : String) (e : VErr),
      generate_source (annotate_tree t) = .error e →
      "source" ∉ ((run_vspec2c t hn).1.map Prod.fst)) := by
  refine ⟨?_, ?_, generate_source_error_of_emit, ?_⟩
  · intro k a i pi u ty pth h1 h2 h3 h4 hp h5
    refine ⟨?_, rfl⟩
    rw [emit_signal_error_iff, signal_fields_err_kind k a i pi u ty h1 h2 h3
      h4 h5, fail_key_path _ _ _ hp]
  · intro k a i pi u ty et dt pth h1 h2 h3 h4 hp h5 hd h6
    refine ⟨?_, rfl⟩
    rw [emit_signal_error_iff, signal_fields_err_datatype k a i pi u ty et dt
      h1 h2 h3 h4 h5 hd h6, fail_datatype_path _ _ _ hp]
  · intro t hn e h
    simp only [annotate_tree] at h
    simp only [run_vspec2c]
    cases hh : generate_header
        (add_signal_path ((add_signal_index t 0 (-1)).1) "") with
    | error e0 => simp
    | ok mb => rw [h]; simp

def bad_kind_ex : Attrs :=
  { type := some "Widget", uuid := some "u1", idx := some 0,
    parentIdx := some (-1), signalPath := some "W" }

theorem claim_C6_witness :
    emit_signal "W" bad_kind_ex
      = .error (.keyMissing (lower "Widget") "W") ∧
    exit_code (.keyMissing (lower "Widget") "W") = 255 :=
  claim_C6.1 "W" bad_kind_ex 0 (-1) "u1" "Widget" "W"
    rfl rfl rfl rfl rfl (by decide)

/-- Amended C3: a successful run writes exactly the header then the source;
a failed run never writes the source artifact, but may already have written
the header (the header is written before record emission runs, see the
counterexample). -/
theorem claim_C3 (t : VTree) (hn : String) :
    ((run_vspec2c t hn).2 = none →
      (run_vspec2c t hn).1.map Prod.fst = ["header", "source"]) ∧
    (∀ e, (run_vspec2c t hn).2 = some e →
      ("source" ∉ (run_vspec2c t hn).1.map Prod.fst) ∧
      ((run_vspec2c t hn).1.map Prod.fst = []
        ∨ (run_vspec2c t hn).1.map Prod.fst = ["header"])) := by
  simp only [run_vspec2c]
  cases hh : generate_header
      (add_signal_path ((add_signal_index t 0 (-1)).1) "") with
  | error e0 => simp
  | ok mb =>
    cases hs : generate_source
        (add_signal_path ((add_signal_index t 0 (-1)).1) "") with
    | error e1 => simp
    | ok sd => simp

def no_uuid_ex : VTree := [("A", .mk { type := some "sensor" } [])]

/-- The claim as stated fails: a run that dies on a missing `uuid` still
leaves the header artifact written — the header is generated and written
before `generate_source` runs, so the failed run writes one artifact,
neither zero nor two. -/
theorem claim_C3_counterexample :
    (run_vspec2c no_uuid_ex "x.h").1.map Prod.fst = ["header"] ∧
    (run_vspec2c no_uuid_ex "x.h").2 = some (.keyMissing "uuid" "A") ∧
    exit_code (.keyMissing "uuid" "A") = 255 := by
  refine ⟨?_, ?_, rfl⟩ <;>
    simp [run_vspec2c, add_signal_index, add_signal_path, generate_header,
      generate_source, emit_signal, signal_fields, fail_key, no_uuid_ex]

def ok_ex : VTree := [("A", .mk { type := some "sensor", uuid := some "u1" } [])]

theorem claim_C3_witness :
    (run_vspec2c ok_ex "x.h").1.map Prod.fst = ["header", "source"] :=
  (claim_C3 ok_ex "x.h").1 (by
    simp [run_vspec2c, add_signal_index, add_signal_path, generate_header,
      generate_source, emit_signal, signal_fields, ok_ex, element_map,
      show lower "sensor" = "sensor" from by decide])

/-- Amended C7: when compilation succeeds, the number of emitted records and
the number of emitted macros both equal the number of visited nodes, which
on trees well-formed in the code's sense is the total node count `N`; the
generated source and header blocks are exactly the concatenations of those
record and macro lists. -/
theorem claim_C7 (t : VTree) (h : wellFormedCode t = true) :
    ((records (annotate_tree t)).map List.length
      = (records (annotate_tree t)).map (fun _ => (allNodes t).length)) ∧
    ((macros (annotate_tree t)).map List.length
      = (macros (annotate_tree t)).map (fun _ => (allNodes t).length)) ∧
    ((generate_source (annotate_tree t)).map Prod.fst
      = (records (annotate_tree t)).map cat) ∧
    (generate_header (annotate_tree t) = (macros (annotate_tree t)).map cat) := by
  have hb : branchChildrenOnly t = true := by
    simp only [wellFormedCode, Bool.and_eq_true] at h
    exact h.2
  have hlen : (visited (annotate_tree t)).length = (allNodes t).length := by
    rw [annotate_tree_visited_length, visited_eq_allNodes t hb]
  refine ⟨?_, ?_, generate_source_fst _, generate_header_eq_macros _⟩
  · cases hr : records (annotate_tree t) with
    | error e => rfl
    | ok l =>
      simp only [Except.map]
      rw [records_length _ l hr, hlen]
  · cases hm : macros (annotate_tree t) with
    | error e => rfl
    | ok l =>
      simp only [Except.map]
      rw [macros_length _ l hm, hlen]

/-- The claim as stated fails: on the spec-well-formed 2-node `rbranch` tree
compilation succeeds but emits one record and one macro, not `N = 2`. -/
theorem claim_C7_counterexample :
    (records (annotate_tree rbranch_ex)).map List.length = .ok 1 ∧
    (macros (annotate_tree rbranch_ex)).map List.length = .ok 1 ∧
    (allNodes rbranch_ex).length = 2 ∧
    wellFormedSpec rbranch_ex = true := by
  refine ⟨?_, ?_, ?_, ?_⟩
  · simp [records, annotate_tree, add_signal_index, add_signal_path,
      emit_signal, signal_fields, rbranch_ex, element_map, type_map,
      Except.map, show lower "rbranch" = "rbranch" from by decide]
  · simp [macros, annotate_tree, add_signal_index, add_signal_path,
      rbranch_ex, Except.map]
  · simp [allNodes, rbranch_ex]
  · simp [wellFormedSpec, allNodes, rbranch_ex, VNode.attrs, VNode.children]

theorem claim_C7_witness :
    (records (annotate_tree vspec_ex)).map List.length
      = (records (annotate_tree vspec_ex)).map
          (fun _ => (allNodes vspec_ex).length) :=
  (claim_C7 vspec_ex (by
    simp [wellFormedCode, allTyped, branchChildrenOnly, allNodes, vspec_ex,
      VNode.attrs, VNode.children])).1

/-- Amended C9: one macro per visited node (not per node of the whole tree),
whose name is `VSS_` followed by the node's path exactly as built by the
path pass (underscore-joined, original case — not upper-cased), and whose
body applies `vss_get_signal_by_index` to the node's index; the header block
is their concatenation. -/
theorem claim_C9 (t : VTree) (_h : allTyped t = true) :
    macros (annotate_tree t)
      = .ok ((visited (annotate_tree t)).map (fun q =>
          "#define VSS_" ++ ((VNode.attrs q.2).signalPath.getD "")
            ++ "() vss_get_signal_by_index("
            ++ toString ((VNode.attrs q.2).idx.getD 0) ++ ")\n")) ∧
    generate_header (annotate_tree t) = (macros (annotate_tree t)).map cat := by
  refine ⟨?_, generate_header_eq_macros _⟩
  refine macros_formula _ (fun q hq => ?_)
  obtain ⟨h1, -, h3⟩ := annotate_tree_visited_some t q hq
  exact ⟨h3, h1⟩

/-- The claim as stated fails twice on the spec-well-formed `rbranch` tree:
the child `abc` gets no macro at all, and the macro the root does get uses
the path in its original case (`VSS_top`), not upper-cased (`VSS_TOP`). -/
theorem claim_C9_counterexample :
    macros (annotate_tree rbranch_ex)
      = .ok ["#define VSS_top() vss_get_signal_by_index(0)\n"] ∧
    (allNodes rbranch_ex).length = 2 ∧
    ("#define VSS_top() vss_get_signal_by_index(0)\n"
      ≠ "#define VSS_TOP() vss_get_signal_by_index(0)\n") ∧
    wellFormedSpec rbranch_ex = true := by
  refine ⟨?_, ?_, by decide, ?_⟩
  · simp [macros, annotate_tree, add_signal_index, add_signal_path,
      rbranch_ex,
      show toString (0 : Nat) = "0" from by decide,
      show ("#define VSS_" ++ "top" ++ "() vss_get_signal_by_index(" ++ "0"
        ++ ")\n") = "#define VSS_top() vss_get_signal_by_index(0)\n"
        from by decide]
  · simp [allNodes, rbranch_ex]
  · simp [wellFormedSpec, allNodes, rbranch_ex, VNode.attrs, VNode.children]

theorem claim_C9_witness :
    generate_header (annotate_tree vspec_ex)
      = (macros (annotate_tree vspec_ex)).map cat :=
  (claim_C9 vspec_ex (by
    simp [allTyped, allNodes, vspec_ex, VNode.attrs])).2

/-- C10: on a tree whose nodes all carry `type`, the three passes traverse
the same nodes (same names in the same pre-order), every node reached by
emission already has `_index_`, `_parent_index_` and `_signal_path_`, and an
emission failure can only be a missing `uuid`, an unknown kind, or an
unknown value-type — never a missing index, parent index or path. -/
theorem claim_C10 (t : VTree) (h : allTyped t = true) :
    ((visited (annotate_tree t)).map Prod.fst = (visited t).map Prod.fst) ∧
    (∀ q ∈ visited (annotate_tree t),
      (VNode.attrs q.2).idx.isSome = true ∧
      (VNode.attrs q.2).parentIdx.isSome = true ∧
      (VNode.attrs q.2).signalPath.isSome = true) ∧
    (∀ e, generate_source (annotate_tree t) = .error e →
      ∃ kk n pth, (kk, n) ∈ visited (annotate_tree t) ∧
        (VNode.attrs n).signalPath = some pth ∧
        emit_signal kk (VNode.attrs n) = .error e ∧
        (((VNode.attrs n).uuid = none ∧ e = .keyMissing "uuid" pth) ∨
         (∃ ty, (VNode.attrs n).type = some ty ∧
            element_map (lower ty) = none ∧ e = .keyMissing (lower ty) pth) ∨
         (∃ dt, (VNode.attrs n).datatype = some dt ∧
            type_map (lower dt) = none ∧
            e = .illegalDataType (lower dt) pth))) := by
  refine ⟨annotate_tree_visited_fst t, annotate_tree_visited_some t, ?_⟩
  intro e he
  obtain ⟨kk, n, hmem, hemit⟩ := generate_source_error_node _ e he
  obtain ⟨hidx, hpidx, hpath⟩ := annotate_tree_visited_some t (kk, n) hmem
  have htype : (VNode.attrs n).type.isSome = true := by
    have h1 := List.mem_map_of_mem (fun q => (VNode.attrs q.2).type) hmem
    rw [annotate_tree_visited_type t] at h1
    obtain ⟨q0, hq0, heq⟩ := List.mem_map.mp h1
    have hsub := visited_subset_allNodes t q0 hq0
    simp only [allTyped, List.all_eq_true] at h
    have hq0t := h q0 hsub
    have heq2 : (VNode.attrs q0.2).type = (VNode.attrs n).type := heq
    rw [← heq2]
    exact hq0t
  rw [Option.isSome_iff_exists] at hpath
  obtain ⟨pth, hpth⟩ := hpath
  refine ⟨kk, n, pth, hmem, hpth, hemit, ?_⟩
  have hsf : signal_fields kk (VNode.attrs n) = .error e :=
    (emit_signal_error_iff _ _ _).mp hemit
  rcases signal_fields_error_cases kk (VNode.attrs n) e hsf with
    ⟨hnone, -⟩ | ⟨hnone, -⟩ | ⟨hnone, hee⟩ | ⟨hnone, -⟩ |
    ⟨ty, hty, hm, hee⟩ | ⟨dt, hdt, hm, hee⟩
  · simp [hnone] at hidx
  · simp [hnone] at hpidx
  · exact Or.inl ⟨hnone, by rw [hee, fail_key_path _ _ _ hpth]⟩
  · simp [hnone] at htype
  · exact Or.inr (Or.inl ⟨ty, hty, hm, by
      rw [hee, fail_key_path _ _ _ hpth]⟩)
  · exact Or.inr (Or.inr ⟨dt, hdt, hm, by
      rw [hee, fail_datatype_path _ _ _ hpth]⟩)

theorem claim_C10_witness :
    (visited (annotate_tree vspec_ex)).map Prod.fst
      = (visited vspec_ex).map Prod.fst :=
  (claim_C10 vspec_ex (by
    simp [allTyped, allNodes, vspec_ex, VNode.attrs])).1
